import Mathlib

/-!
Verification of the rs-async-zip streaming core against its design notes.

The definitions below are a shallow embedding of the two source files
src/stream/read/mod.rs (stream reader) and src/write/entry_stream.rs
(entry stream writer).  Byte streams are lists of natural numbers
(each intended below 256), machine integers are naturals with explicit
reductions modulo 2^16 or 2^32 where the Rust code casts, and fallible
Rust paths return explicit result values.  Items of the crate that are
referenced by the two files but whose sources are not available
(delimiter constants, header serialization, the encode direction of the
date codec, the error enum) are modelled from the specification text and
marked as such in their doc comments.
-/

namespace RsAsyncZip

/-- Little-endian decoding of two bytes, as read_u16_le does. -/
def le16 (b0 b1 : Nat) : Nat := b0 + 256 * b1

/-- Little-endian decoding of four bytes, as read_u32_le does. -/
def le32 (b0 b1 b2 b3 : Nat) : Nat :=
  b0 + 256 * b1 + 65536 * b2 + 16777216 * b3

/-- Little-endian encoding of a u16 value (to_le_bytes on u16). -/
def le2Bytes (n : Nat) : List Nat := [n % 256, n / 256 % 256]

/-- Little-endian encoding of a u32 value (to_le_bytes on u32). -/
def le4Bytes (n : Nat) : List Nat :=
  [n % 256, n / 256 % 256, n / 65536 % 256, n / 16777216 % 256]

/-- Modelled from the spec: the local file header delimiter, magic A of
section 6.  The constant lives in crate::delim / crate::spec::delimiter,
whose source is not part of the provided files; the value is the ZIP
wire magic for a local file header. -/
def LFHD : Nat := 0x04034b50

/-- Modelled from the spec: the central directory file header delimiter,
magic C of section 6, the end-of-entries sentinel of the reader.  The
constant lives in crate::delim, whose source is not part of the provided
files; the value is the ZIP wire magic for a central directory header. -/
def CDFHD : Nat := 0x02014b50

/-- Modelled from the spec: the data descriptor delimiter, magic B of
section 6.  The constant lives in crate::spec::delimiter, whose source
is not part of the provided files; the value is the ZIP wire magic for a
data descriptor. -/
def DDD : Nat := 0x08074b50

/-- One shift-xor round of the reflected CRC32 polynomial 0xEDB88320. -/
def crcStep (c : Nat) : Nat :=
  if c % 2 = 1 then Nat.xor (c / 2) 0xEDB88320 else c / 2

/-- Absorb one byte into a CRC32 state: xor the byte in, then run eight
polynomial rounds.  This is the bitwise form of the IEEE CRC32 that the
crc32fast Hasher computes. -/
def crcByte (c b : Nat) : Nat :=
  crcStep (crcStep (crcStep (crcStep (crcStep (crcStep (crcStep (crcStep (Nat.xor c b))))))))

/-- The CRC32 state after absorbing a list of bytes (Hasher::update). -/
def crcUpdate (c : Nat) (l : List Nat) : Nat := l.foldl crcByte c

/-- Initial CRC32 conditioning state. -/
def crcInit : Nat := 0xFFFFFFFF

/-- The IEEE CRC32 of a byte sequence, the value crc32fast returns from
Hasher::finalize after updating with that sequence. -/
def crc32 (l : List Nat) : Nat := Nat.xor (crcUpdate crcInit l) 0xFFFFFFFF

/-! ## Packed date and time codec -/

/-- Field extraction that zip_date_to_chrono performs on the packed
16-bit date: years = ((date AND 0xFE00) >> 9) + 1980, months =
(date AND 0x1E0) >> 5, days = date AND 0x1F. -/
def zipDateFields (date : Nat) : Nat × Nat × Nat :=
  ((Nat.land date 0xFE00 >>> 9) + 1980, Nat.land date 0x1E0 >>> 5, Nat.land date 0x1F)

/-- Field extraction that zip_date_to_chrono performs on the packed
16-bit time, transcribed exactly from the source: hours =
(time AND 0x1F) >> 11, mins = (time AND 0x7E0) >> 5, secs =
(time AND 0x1F) << 1.  Note the hour expression masks the low five bits
and then shifts them out entirely. -/
def zipTimeFields (time : Nat) : Nat × Nat × Nat :=
  (Nat.land time 0x1F >>> 11, Nat.land time 0x7E0 >>> 5, Nat.land time 0x1F <<< 1)

/-- Leap year rule of the proleptic Gregorian calendar used by chrono. -/
def isLeapYear (y : Nat) : Bool :=
  (y % 4 = 0 && y % 100 ≠ 0) || y % 400 = 0

/-- Days in a month of the proleptic Gregorian calendar. -/
def daysInMonth (y m : Nat) : Nat :=
  if m = 2 then (if isLeapYear y then 29 else 28)
  else if m = 4 || m = 6 || m = 9 || m = 11 then 30
  else 31

/-- Validity domain of chrono Utc.ymd(..).and_hms(..): both functions
panic outside it. -/
def chronoValid (y mo d h mi s : Nat) : Bool :=
  1 ≤ mo && mo ≤ 12 && 1 ≤ d && d ≤ daysInMonth y mo && h < 24 && mi < 60 && s < 60

/-- Embedding of zip_date_to_chrono.  The Rust function builds a chrono
DateTime with Utc.ymd(..).and_hms(..), which panics when the extracted
fields are not a valid calendar timestamp; the panic is modelled by
none, and a successful conversion by the six extracted fields. -/
def zip_date_to_chrono (date time : Nat) : Option (Nat × Nat × Nat × Nat × Nat × Nat) :=
  let ymd := zipDateFields date
  let hms := zipTimeFields time
  if chronoValid ymd.1 ymd.2.1 ymd.2.2 hms.1 hms.2.1 hms.2.2 then
    some (ymd.1, ymd.2.1, ymd.2.2, hms.1, hms.2.1, hms.2.2)
  else none

/-- Modelled from the spec: chrono_to_zip_time (crate::spec::date, not
among the provided sources) packs a calendar timestamp into the 16-bit
time and 16-bit date of section 3: 7-bit year offset from 1980, 4-bit
month, 5-bit day; 5-bit hour, 6-bit minute, 5-bit seconds at 2-second
resolution.  Returns (mod_time, mod_date) as the Rust function does. -/
def chrono_to_zip_time (y mo d h mi s : Nat) : Nat × Nat :=
  (2048 * h + 32 * mi + s / 2, 512 * (y - 1980) + 32 * mo + d)

/-! ## Errors and header records -/

/-- Modelled from the spec: the error variants of crate::error::ZipError
used by the two provided files, per the taxonomy of section 7. -/
inductive ZipError where
  | ReadFailed : ZipError
  | FeatureNotSupported : String → ZipError
  | LocalFileHeaderError : Nat → ZipError
  | UnsupportedCompressionError : Nat → ZipError
  deriving DecidableEq

/-- The general purpose flag record with the two bits the core reads. -/
structure GeneralPurposeFlag where
  encrypted : Bool
  data_descriptor : Bool
  deriving DecidableEq

/-- Modelled from the spec: serialization of the flag word.  The bit
positions are the ZIP wire positions (encryption is bit 0, the data
descriptor indicator is bit 3); the Rust GeneralPurposeFlag conversions
live in crate::spec::header outside the provided files. -/
def GeneralPurposeFlag.toWord (f : GeneralPurposeFlag) : Nat :=
  (if f.encrypted then 1 else 0) + (if f.data_descriptor then 8 else 0)

/-- Modelled from the spec: parsing of the flag word, inverse bit
positions of GeneralPurposeFlag.toWord. -/
def flagsOfWord (n : Nat) : GeneralPurposeFlag :=
  { encrypted := n.testBit 0, data_descriptor := n.testBit 3 }

/-- The local file header record of crate::spec::header, with the fields
the two provided files use.  Numeric fields are u16 or u32 on the wire. -/
structure LocalFileHeader where
  version : Nat
  flags : GeneralPurposeFlag
  compression : Nat
  mod_time : Nat
  mod_date : Nat
  crc : Nat
  compressed_size : Nat
  uncompressed_size : Nat
  file_name_length : Nat
  extra_field_length : Nat
  deriving DecidableEq

/-- Wellformedness of a header: every field fits its wire width. -/
def LocalFileHeader.wf (h : LocalFileHeader) : Prop :=
  h.version < 65536 ∧ h.compression < 65536 ∧ h.mod_time < 65536 ∧
  h.mod_date < 65536 ∧ h.crc < 4294967296 ∧ h.compressed_size < 4294967296 ∧
  h.uncompressed_size < 4294967296 ∧ h.file_name_length < 65536 ∧
  h.extra_field_length < 65536

instance (h : LocalFileHeader) : Decidable h.wf := by
  unfold LocalFileHeader.wf; infer_instance

/-- Modelled from the spec: LocalFileHeader::to_slice, the 26-byte fixed
record of section 6, in order version(2), flags(2), compression(2),
mod_time(2), mod_date(2), checksum(4), compressed_size(4),
uncompressed_size(4), filename_length(2), extra_length(2), all
little-endian. -/
def LocalFileHeader.to_slice (h : LocalFileHeader) : List Nat :=
  le2Bytes h.version ++ le2Bytes h.flags.toWord ++ le2Bytes h.compression ++
  le2Bytes h.mod_time ++ le2Bytes h.mod_date ++ le4Bytes h.crc ++
  le4Bytes h.compressed_size ++ le4Bytes h.uncompressed_size ++
  le2Bytes h.file_name_length ++ le2Bytes h.extra_field_length

/-- Modelled from the spec: LocalFileHeader::from on a 26-byte buffer,
reading the fixed record of section 6 at its fixed offsets.  Inputs
shorter than 26 bytes never reach this function in the reader. -/
def headerFromBytes : List Nat → LocalFileHeader
  | v0 :: v1 :: f0 :: f1 :: c0 :: c1 :: t0 :: t1 :: d0 :: d1 ::
    r0 :: r1 :: r2 :: r3 :: s0 :: s1 :: s2 :: s3 ::
    u0 :: u1 :: u2 :: u3 :: n0 :: n1 :: e0 :: e1 :: _ =>
    { version := le16 v0 v1
      flags := flagsOfWord (le16 f0 f1)
      compression := le16 c0 c1
      mod_time := le16 t0 t1
      mod_date := le16 d0 d1
      crc := le32 r0 r1 r2 r3
      compressed_size := le32 s0 s1 s2 s3
      uncompressed_size := le32 u0 u1 u2 u3
      file_name_length := le16 n0 n1
      extra_field_length := le16 e0 e1 }
  | _ =>
    { version := 0, flags := { encrypted := false, data_descriptor := false },
      compression := 0, mod_time := 0, mod_date := 0, crc := 0,
      compressed_size := 0, uncompressed_size := 0,
      file_name_length := 0, extra_field_length := 0 }

/-! ## UTF-8 validity

read_string reads through Take::read_to_string, which fails unless the
bytes form valid UTF-8.  The validator below is the byte-level RFC 3629
acceptance test that the Rust standard library enforces for String. -/

/-- A UTF-8 continuation byte. -/
def contByte (b : Nat) : Bool := 0x80 ≤ b && b ≤ 0xBF

/-- Byte-level UTF-8 validity, as enforced by read_to_string. -/
def validUtf8 : List Nat → Bool
  | [] => true
  | b :: rest =>
    if b ≤ 0x7F then validUtf8 rest
    else if 0xC2 ≤ b && b ≤ 0xDF then
      match rest with
      | b1 :: r => contByte b1 && validUtf8 r
      | [] => false
    else if b = 0xE0 then
      match rest with
      | b1 :: b2 :: r => (0xA0 ≤ b1 && b1 ≤ 0xBF) && contByte b2 && validUtf8 r
      | _ => false
    else if (0xE1 ≤ b && b ≤ 0xEC) || b = 0xEE || b = 0xEF then
      match rest with
      | b1 :: b2 :: r => contByte b1 && contByte b2 && validUtf8 r
      | _ => false
    else if b = 0xED then
      match rest with
      | b1 :: b2 :: r => (0x80 ≤ b1 && b1 ≤ 0x9F) && contByte b2 && validUtf8 r
      | _ => false
    else if b = 0xF0 then
      match rest with
      | b1 :: b2 :: b3 :: r =>
        (0x90 ≤ b1 && b1 ≤ 0xBF) && contByte b2 && contByte b3 && validUtf8 r
      | _ => false
    else if 0xF1 ≤ b && b ≤ 0xF3 then
      match rest with
      | b1 :: b2 :: b3 :: r => contByte b1 && contByte b2 && contByte b3 && validUtf8 r
      | _ => false
    else if b = 0xF4 then
      match rest with
      | b1 :: b2 :: b3 :: r =>
        (0x80 ≤ b1 && b1 ≤ 0x8F) && contByte b2 && contByte b3 && validUtf8 r
      | _ => false
    else false

/-! ## Stream reader

The async source is modelled as the list of bytes it will deliver, in
order.  A single read call returns as many of the requested bytes as
remain (the fully-buffered view of the underlying AsyncBufRead);
read_u32_le needs all four bytes and fails at end of stream. -/

/-- The concrete decoder variants of CompressionReader.  Each wraps the
same bounded Take sub-stream; its contents are carried as the window
the variant may consume from the source. -/
inductive CompressionReader where
  | Stored : List Nat → CompressionReader
  | Deflate : List Nat → CompressionReader
  | Bz : List Nat → CompressionReader
  | Lzma : List Nat → CompressionReader
  | Zstd : List Nat → CompressionReader
  | Xz : List Nat → CompressionReader
  deriving DecidableEq

/-- The bounded source window a decoder variant wraps. -/
def CompressionReader.window : CompressionReader → List Nat
  | .Stored w => w
  | .Deflate w => w
  | .Bz w => w
  | .Lzma w => w
  | .Zstd w => w
  | .Xz w => w

/-- The decoder dispatch of next_entry: the match on header.compression
building a CompressionReader over the Take sub-stream, with none for
every unsupported code. -/
def compressionReaderOfCode (c : Nat) (w : List Nat) : Option CompressionReader :=
  if c = 0 then some (.Stored w)
  else if c = 8 then some (.Deflate w)
  else if c = 12 then some (.Bz w)
  else if c = 14 then some (.Lzma w)
  else if c = 93 then some (.Zstd w)
  else if c = 95 then some (.Xz w)
  else none

/-- The ZipStreamFile record returned by next_entry.  The file name
carries the bytes of the Rust String; last_modified carries the six
calendar fields of the chrono DateTime. -/
structure ZipStreamFile where
  file_name : List Nat
  compressed_size : Nat
  uncompressed_size : Nat
  last_modified : Nat × Nat × Nat × Nat × Nat × Nat
  crc : Nat
  extra : List Nat
  bytes_read : Nat
  reader : CompressionReader
  deriving DecidableEq

/-- Outcome of next_entry: Ok(None) at the end-of-entries sentinel,
Ok(Some file) with the source bytes past the entry window, Err(e), or a
panic escaping from the chrono date constructors. -/
inductive NextEntryResult where
  | finished : List Nat → NextEntryResult
  | entry : ZipStreamFile → List Nat → NextEntryResult
  | failed : ZipError → NextEntryResult
  | panicked : NextEntryResult
  deriving DecidableEq

/-- The body of next_entry after the 26 header bytes are in hand: the
flag rejections, the file name read (read_to_string over a Take, which
reads up to the declared length and validates UTF-8), the extra field
read (one read call into a buffer of the declared length, zero-padded
on a short read), the decoder dispatch over the Take sub-stream, and
the date conversion performed while building the ZipStreamFile. -/
def parseAfterHeader (header : LocalFileHeader) (s1 : List Nat) : NextEntryResult :=
  if header.flags.encrypted then .failed (.FeatureNotSupported "file encryption")
  else if header.flags.data_descriptor then .failed (.FeatureNotSupported "file data descriptors")
  else
    let nameBytes := s1.take header.file_name_length
    if validUtf8 nameBytes then
      let s2 := s1.drop header.file_name_length
      let k := min header.extra_field_length s2.length
      let extra := s2.take k ++ List.replicate (header.extra_field_length - k) 0
      let s3 := s2.drop k
      match compressionReaderOfCode header.compression (s3.take header.compressed_size) with
      | none => .failed (.UnsupportedCompressionError header.compression)
      | some rd =>
        match zip_date_to_chrono header.mod_date header.mod_time with
        | none => .panicked
        | some lm =>
          .entry
            { file_name := nameBytes
              compressed_size := header.compressed_size
              uncompressed_size := header.uncompressed_size
              last_modified := lm
              crc := header.crc
              extra := extra
              bytes_read := 0
              reader := rd }
            (s3.drop header.compressed_size)
    else .failed .ReadFailed

/-- Embedding of next_entry past the delimiter: read_header issues one
read call for a 26-byte buffer and fails unless all 26 bytes arrive,
then hands the parsed header to parseAfterHeader. -/
def parseEntryBody (src : List Nat) : NextEntryResult :=
  if src.length < 26 then .failed .ReadFailed
  else parseAfterHeader (headerFromBytes (src.take 26)) (src.drop 26)

/-- Embedding of ZipStreamReader::next_entry: read the 4-byte
little-endian delimiter; LFHD continues into the entry body, CDFHD ends
the scan, anything else is a LocalFileHeaderError carrying the value
found; fewer than four remaining bytes is a ReadFailed from
read_u32_le. -/
def nextEntry : List Nat → NextEntryResult
  | b0 :: b1 :: b2 :: b3 :: rest =>
    let m := le32 b0 b1 b2 b3
    if m = LFHD then parseEntryBody rest
    else if m = CDFHD then .finished rest
    else .failed (.LocalFileHeaderError m)
  | _ => .failed .ReadFailed

/-- Embedding of ZipStreamFile::is_eof: the declared uncompressed size
compared against the bytes read so far. -/
def ZipStreamFile.is_eof (f : ZipStreamFile) : Bool :=
  f.uncompressed_size == f.bytes_read

/-- The read-and-discard loop of consume: each iteration reads into an
8192-byte buffer from the remaining decoded stream, adds the returned
count to bytes_read, and stops at a zero-length read.  bytes_read is a
u32 in the source and its accumulation wraps (poll_read adds the filled
delta as u32), so the addition is reduced modulo 2^32.  Returns the
file with its final bytes_read. -/
def consumeLoop : ZipStreamFile → List Nat → ZipStreamFile
  | f, [] => f
  | f, d :: ds =>
    consumeLoop
      { f with bytes_read := (f.bytes_read + min 8192 (d :: ds).length) % 4294967296 }
      ((d :: ds).drop (min 8192 (d :: ds).length))
termination_by _ d => d.length
decreasing_by simp

/-- Embedding of ZipStreamFile::consume over the remaining decoded
stream of the entry: drain until a zero-length read, then fail with
ReadFailed unless is_eof holds. -/
def ZipStreamFile.consume (f : ZipStreamFile) (decoded : List Nat) : Except ZipError Unit :=
  let f2 := consumeLoop f decoded
  if !f2.is_eof then .error .ReadFailed else .ok ()

/-! ## Entry stream writer

The sink is modelled as the list of all bytes written since the parent
ZipFileWriter was created, so the offset of its outer counting
decorator is the length of that list.  The compression codec is kept
abstract: the bytes accepted by poll_write accumulate as the pending
uncompressed input of the encoder, and shutdown flushes the full
encoded output into the sink.  When in the entry lifetime the encoder
emits its output does not change any quantity the writer records, since
both sizes are read only after shutdown. -/

/-- Per-entry caller options.  The compression field carries the
numeric method code that Compression::to_u16 yields. -/
structure EntryOptions where
  filename : List Nat
  extra : List Nat
  comment : List Nat
  compression : Nat
  deriving DecidableEq

/-- The central directory header record assembled by close. -/
structure CentralDirectoryHeader where
  compressed_size : Nat
  uncompressed_size : Nat
  crc : Nat
  v_made_by : Nat
  v_needed : Nat
  compression : Nat
  extra_field_length : Nat
  file_name_length : Nat
  file_comment_length : Nat
  mod_time : Nat
  mod_date : Nat
  flags : GeneralPurposeFlag
  disk_start : Nat
  inter_attr : Nat
  exter_attr : Nat
  lh_offset : Nat
  deriving DecidableEq

/-- One element of the parent writer record list. -/
structure CentralDirectoryEntry where
  header : CentralDirectoryHeader
  opts : EntryOptions
  deriving DecidableEq

/-- The parent ZipFileWriter state the entry writer borrows: the sink
behind the outer offset decorator, and the shared record list. -/
structure ZipFileWriter where
  sink : List Nat
  cd_entries : List CentralDirectoryEntry
  deriving DecidableEq

/-- The outer offset decorator count: total bytes forwarded to the sink
since the writer was created. -/
def ZipFileWriter.offset (w : ZipFileWriter) : Nat := w.sink.length

/-- An abstract compression codec: total encoded output for a given
uncompressed input, and the matching decoder. -/
structure StreamCodec where
  encode : List Nat → List Nat
  decode : List Nat → List Nat

/-- The local file header that write_lfh builds: zeroed sizes and
checksum, the data descriptor flag set, lengths cast to u16. -/
def lfhFor (opts : EntryOptions) (mod_time mod_date : Nat) : LocalFileHeader :=
  { compressed_size := 0
    uncompressed_size := 0
    compression := opts.compression
    crc := 0
    extra_field_length := opts.extra.length % 65536
    file_name_length := opts.filename.length % 65536
    mod_time := mod_time
    mod_date := mod_date
    version := 0
    flags := { encrypted := false, data_descriptor := true } }

/-- Embedding of EntryStreamWriter::write_lfh: serialize the LFHD
delimiter, the placeholder header, the file name and the extra field
into the parent sink, returning the header kept for close.  The mod
time and date produced from Utc::now() are parameters. -/
def write_lfh (w : ZipFileWriter) (opts : EntryOptions) (mod_time mod_date : Nat) :
    ZipFileWriter × LocalFileHeader :=
  let lfh := lfhFor opts mod_time mod_date
  ({ w with
      sink := w.sink ++ le4Bytes LFHD ++ lfh.to_slice ++ opts.filename ++ opts.extra },
    lfh)

/-- The entry stream writer state after from_raw. -/
structure EntryStreamWriter where
  parent : ZipFileWriter
  pending : List Nat
  crcState : Nat
  acceptedCount : Nat
  options : EntryOptions
  lfh : LocalFileHeader
  lfh_offset : Nat
  data_offset : Nat
  deriving DecidableEq

/-- Embedding of EntryStreamWriter::from_raw: record the header offset,
emit the placeholder header, record the data offset, and start with a
fresh hasher and encoder. -/
def EntryStreamWriter.from_raw (w : ZipFileWriter) (opts : EntryOptions)
    (mod_time mod_date : Nat) : EntryStreamWriter :=
  let lfh_offset := w.offset
  let p := write_lfh w opts mod_time mod_date
  { parent := p.1
    pending := []
    crcState := crcInit
    acceptedCount := 0
    options := opts
    lfh := p.2
    lfh_offset := lfh_offset
    data_offset := p.1.offset }

/-- Embedding of poll_write: the encoder stack accepts some count of
bytes from the buffer, and exactly that accepted prefix is fed to the
hasher, counted by the inner offset decorator, and added to the
encoder input. -/
def EntryStreamWriter.write (e : EntryStreamWriter) (buf : List Nat) (accepted : Nat) :
    EntryStreamWriter :=
  let acc := buf.take accepted
  { e with
      pending := e.pending ++ acc
      crcState := crcUpdate e.crcState acc
      acceptedCount := e.acceptedCount + acc.length }

/-- Embedding of EntryStreamWriter::close: shut the encoder down
(flushing its full output into the parent sink), finalize the hasher,
read the uncompressed count from the inner offset decorator as u32,
compute the compressed size as the outer offset minus the data offset
as u32, write the data descriptor, and append the assembled central
directory header with the entry options to the shared record list. -/
def EntryStreamWriter.close (e : EntryStreamWriter) (codec : StreamCodec) : ZipFileWriter :=
  let sink1 := e.parent.sink ++ codec.encode e.pending
  let crc := Nat.xor e.crcState 0xFFFFFFFF
  let uncompressed_size := e.acceptedCount % 4294967296
  let compressed_size := (sink1.length - e.data_offset) % 4294967296
  let sink2 := sink1 ++ le4Bytes DDD ++ le4Bytes crc ++
    le4Bytes compressed_size ++ le4Bytes uncompressed_size
  let cdh : CentralDirectoryHeader :=
    { compressed_size := compressed_size
      uncompressed_size := uncompressed_size
      crc := crc
      v_made_by := 0
      v_needed := 0
      compression := e.lfh.compression
      extra_field_length := e.lfh.extra_field_length
      file_name_length := e.lfh.file_name_length
      file_comment_length := e.options.comment.length % 65536
      mod_time := e.lfh.mod_time
      mod_date := e.lfh.mod_date
      flags := e.lfh.flags
      disk_start := 0
      inter_attr := 0
      exter_attr := 0
      lh_offset := e.lfh_offset % 4294967296 }
  { sink := sink2
    cd_entries := e.parent.cd_entries ++ [{ header := cdh, opts := e.options }] }

/-- The accepted uncompressed payload of a sequence of poll_write
calls, each given as the offered buffer and the count the encoder stack
accepted. -/
def acceptedPayload (writes : List (List Nat × Nat)) : List Nat :=
  (writes.map fun p => p.1.take p.2).flatten

/-- A full entry lifetime: open, a sequence of partial writes, close. -/
def runEntry (w : ZipFileWriter) (opts : EntryOptions) (mod_time mod_date : Nat)
    (writes : List (List Nat × Nat)) (codec : StreamCodec) : ZipFileWriter :=
  ((writes.foldl (fun e p => e.write p.1 p.2)
      (EntryStreamWriter.from_raw w opts mod_time mod_date)).close codec)

/-- The single-write entry lifetime of the round-trip property: open,
one write accepting the whole payload, close. -/
def writeEntryStream (w : ZipFileWriter) (opts : EntryOptions) (mod_time mod_date : Nat)
    (payload : List Nat) (codec : StreamCodec) : ZipFileWriter :=
  (((EntryStreamWriter.from_raw w opts mod_time mod_date).write payload payload.length).close codec)

/-! ## Concrete instances used in closed statements -/

/-- The identity codec, the Stored transform. -/
def idCodec : StreamCodec := { encode := fun l => l, decode := fun l => l }

/-- A header whose encryption flag is set and whose other fields are
innocuous. -/
def hdrEncrypted : LocalFileHeader :=
  { version := 0, flags := { encrypted := true, data_descriptor := false },
    compression := 0, mod_time := 0, mod_date := 33, crc := 0,
    compressed_size := 0, uncompressed_size := 0,
    file_name_length := 0, extra_field_length := 0 }

/-- A plain Stored header declaring a one-byte file name and nothing
else; packed date 33 is 1980-01-01. -/
def hdrName1 : LocalFileHeader :=
  { version := 0, flags := { encrypted := false, data_descriptor := false },
    compression := 0, mod_time := 0, mod_date := 33, crc := 0,
    compressed_size := 0, uncompressed_size := 0,
    file_name_length := 1, extra_field_length := 0 }

/-- A plain Stored header declaring a one-byte file name and a one-byte
extra field. -/
def hdrName1Extra1 : LocalFileHeader :=
  { version := 0, flags := { encrypted := false, data_descriptor := false },
    compression := 0, mod_time := 0, mod_date := 33, crc := 0,
    compressed_size := 0, uncompressed_size := 0,
    file_name_length := 1, extra_field_length := 1 }

/-- A plain Stored header declaring a two-byte compressed payload. -/
def hdrPayload2 : LocalFileHeader :=
  { version := 0, flags := { encrypted := false, data_descriptor := false },
    compression := 0, mod_time := 0, mod_date := 33, crc := 0,
    compressed_size := 2, uncompressed_size := 2,
    file_name_length := 0, extra_field_length := 0 }

/-- Options for a one-byte file name, no extra field, no comment,
Stored compression. -/
def optsA : EntryOptions :=
  { filename := [97], extra := [], comment := [], compression := 0 }

/-- The entry handle that parsing hdrName1Extra1 with name byte 97 and
extra byte 5 produces. -/
def fileName1Extra1 : ZipStreamFile :=
  { file_name := [97], compressed_size := 0, uncompressed_size := 0,
    last_modified := (1980, 1, 1, 0, 0, 0), crc := 0, extra := [5],
    bytes_read := 0, reader := .Stored [] }

/-- The entry handle that parsing hdrPayload2 over payload bytes 9, 7
produces. -/
def filePayload2 : ZipStreamFile :=
  { file_name := [], compressed_size := 2, uncompressed_size := 2,
    last_modified := (1980, 1, 1, 0, 0, 0), crc := 0, extra := [],
    bytes_read := 0, reader := .Stored [9, 7] }

/-- A fresh empty entry handle of declared size zero. -/
def fileEmpty : ZipStreamFile :=
  { file_name := [], compressed_size := 0, uncompressed_size := 0,
    last_modified := (1980, 1, 1, 0, 0, 0), crc := 0, extra := [],
    bytes_read := 0, reader := .Stored [] }

/-! ## Helper lemmas -/

theorem le16_le2Bytes (n : Nat) (hn : n < 65536) :
    le16 (n % 256) (n / 256 % 256) = n := by
  unfold le16; omega

theorem le32_le4Bytes (n : Nat) (hn : n < 4294967296) :
    le32 (n % 256) (n / 256 % 256) (n / 65536 % 256) (n / 16777216 % 256) = n := by
  unfold le32; omega

theorem flagsOfWord_toWord (f : GeneralPurposeFlag) :
    flagsOfWord f.toWord = f := by
  obtain ⟨e, d⟩ := f
  cases e <;> cases d <;> decide

theorem to_slice_length (h : LocalFileHeader) : h.to_slice.length = 26 := by
  simp [LocalFileHeader.to_slice, le2Bytes, le4Bytes]

theorem headerFromBytes_to_slice (h : LocalFileHeader) (hwf : h.wf) (tail : List Nat) :
    headerFromBytes (h.to_slice ++ tail) = h := by
  obtain ⟨ver, fl, comp, mt, md, crc, cs, us, fnl, efl⟩ := h
  obtain ⟨h1, h2, h3, h4, h5, h6, h7, h8, h9⟩ := hwf
  simp only [LocalFileHeader.to_slice, le2Bytes, le4Bytes, List.cons_append,
    List.nil_append, headerFromBytes]
  have hfl : flagsOfWord (le16 (GeneralPurposeFlag.toWord fl % 256)
      (GeneralPurposeFlag.toWord fl / 256 % 256)) = fl := by
    rw [le16_le2Bytes _ (by obtain ⟨e, d⟩ := fl; cases e <;> cases d <;> decide)]
    exact flagsOfWord_toWord fl
  simp_all [le16_le2Bytes, le32_le4Bytes]

theorem parseEntryBody_header (h : LocalFileHeader) (hwf : h.wf) (tail : List Nat) :
    parseEntryBody (h.to_slice ++ tail) = parseAfterHeader h tail := by
  have hlen : (h.to_slice ++ tail).length = 26 + tail.length := by
    simp [to_slice_length]
  have htake : (h.to_slice ++ tail).take 26 = h.to_slice :=
    List.take_left' (to_slice_length h)
  have hdrop : (h.to_slice ++ tail).drop 26 = tail :=
    List.drop_left' (to_slice_length h)
  unfold parseEntryBody
  rw [if_neg (by omega), htake, hdrop]
  have : headerFromBytes h.to_slice = h := by
    have := headerFromBytes_to_slice h hwf []
    simpa using this
  rw [this]

theorem nextEntry_lfhd (rest : List Nat) :
    nextEntry (le4Bytes LFHD ++ rest) = parseEntryBody rest := by
  simp [nextEntry, le4Bytes, LFHD, le32]

theorem crcUpdate_append (c : Nat) (a b : List Nat) :
    crcUpdate c (a ++ b) = crcUpdate (crcUpdate c a) b := by
  simp [crcUpdate, List.foldl_append]

theorem consumeLoop_spec (f : ZipStreamFile) (d : List Nat) :
    f.bytes_read < 4294967296 →
    (consumeLoop f d).bytes_read = (f.bytes_read + d.length) % 4294967296 ∧
    (consumeLoop f d).uncompressed_size = f.uncompressed_size := by
  induction f, d using consumeLoop.induct with
  | case1 f =>
    intro hf
    rw [consumeLoop]
    refine ⟨?_, rfl⟩
    simp only [List.length_nil]
    omega
  | case2 f d ds ih =>
    intro hf
    have hlt : (f.bytes_read + min 8192 (d :: ds).length) % 4294967296 < 4294967296 :=
      Nat.mod_lt _ (by omega)
    obtain ⟨i1, i2⟩ := ih hlt
    rw [consumeLoop]
    refine ⟨?_, ?_⟩
    · rw [i1]
      simp only [List.length_cons, List.length_drop]
      omega
    · rw [i2]

theorem windowOfCode {c : Nat} {w : List Nat} {rd : CompressionReader}
    (h : compressionReaderOfCode c w = some rd) : rd.window = w := by
  unfold compressionReaderOfCode at h
  split_ifs at h <;> (cases h; rfl)

theorem lfhFor_wf (opts : EntryOptions) (mod_time mod_date : Nat)
    (hc : opts.compression < 65536) (hmt : mod_time < 65536) (hmd : mod_date < 65536) :
    (lfhFor opts mod_time mod_date).wf := by
  unfold LocalFileHeader.wf
  refine ⟨?_, ?_, ?_, ?_, ?_, ?_, ?_, ?_, ?_⟩ <;> simp only [lfhFor] <;> omega

theorem from_raw_spec (w : ZipFileWriter) (opts : EntryOptions) (mod_time mod_date : Nat) :
    (EntryStreamWriter.from_raw w opts mod_time mod_date).parent.sink
        = w.sink ++ le4Bytes LFHD ++ (lfhFor opts mod_time mod_date).to_slice
          ++ opts.filename ++ opts.extra ∧
    (EntryStreamWriter.from_raw w opts mod_time mod_date).parent.cd_entries = w.cd_entries ∧
    (EntryStreamWriter.from_raw w opts mod_time mod_date).pending = [] ∧
    (EntryStreamWriter.from_raw w opts mod_time mod_date).crcState = crcInit ∧
    (EntryStreamWriter.from_raw w opts mod_time mod_date).acceptedCount = 0 ∧
    (EntryStreamWriter.from_raw w opts mod_time mod_date).options = opts ∧
    (EntryStreamWriter.from_raw w opts mod_time mod_date).lfh = lfhFor opts mod_time mod_date ∧
    (EntryStreamWriter.from_raw w opts mod_time mod_date).lfh_offset = w.sink.length ∧
    (EntryStreamWriter.from_raw w opts mod_time mod_date).data_offset
        = w.sink.length + 30 + opts.filename.length + opts.extra.length := by
  refine ⟨rfl, rfl, rfl, rfl, rfl, rfl, rfl, rfl, ?_⟩
  show (w.sink ++ le4Bytes LFHD ++ (lfhFor opts mod_time mod_date).to_slice
      ++ opts.filename ++ opts.extra).length
    = w.sink.length + 30 + opts.filename.length + opts.extra.length
  simp [to_slice_length, le4Bytes]
  omega

theorem foldWrite_spec (e : EntryStreamWriter) (writes : List (List Nat × Nat)) :
    (writes.foldl (fun a p => a.write p.1 p.2) e).parent = e.parent ∧
    (writes.foldl (fun a p => a.write p.1 p.2) e).options = e.options ∧
    (writes.foldl (fun a p => a.write p.1 p.2) e).lfh = e.lfh ∧
    (writes.foldl (fun a p => a.write p.1 p.2) e).lfh_offset = e.lfh_offset ∧
    (writes.foldl (fun a p => a.write p.1 p.2) e).data_offset = e.data_offset ∧
    (writes.foldl (fun a p => a.write p.1 p.2) e).pending
        = e.pending ++ acceptedPayload writes ∧
    (writes.foldl (fun a p => a.write p.1 p.2) e).crcState
        = crcUpdate e.crcState (acceptedPayload writes) ∧
    (writes.foldl (fun a p => a.write p.1 p.2) e).acceptedCount
        = e.acceptedCount + (acceptedPayload writes).length := by
  induction writes generalizing e with
  | nil => simp [acceptedPayload, crcUpdate]
  | cons p ps ih =>
    have hstep : (p :: ps).foldl (fun a q => a.write q.1 q.2) e
        = ps.foldl (fun a q => a.write q.1 q.2) (e.write p.1 p.2) := rfl
    have hap : acceptedPayload (p :: ps) = p.1.take p.2 ++ acceptedPayload ps := by
      simp [acceptedPayload]
    obtain ⟨i1, i2, i3, i4, i5, i6, i7, i8⟩ := ih (e.write p.1 p.2)
    rw [hstep, hap]
    refine ⟨i1, i2, i3, i4, i5, ?_, ?_, ?_⟩
    · rw [i6]; simp [EntryStreamWriter.write]
    · rw [i7]; simp [EntryStreamWriter.write, crcUpdate_append]
    · rw [i8]; simp [EntryStreamWriter.write]; omega

theorem parseAfterHeader_entry {h : LocalFileHeader} {s1 : List Nat}
    {f : ZipStreamFile} {rest : List Nat}
    (hres : parseAfterHeader h s1 = .entry f rest) :
    f.file_name = s1.take h.file_name_length ∧
    f.extra = (s1.drop h.file_name_length).take
        (min h.extra_field_length (s1.drop h.file_name_length).length)
      ++ List.replicate (h.extra_field_length
          - min h.extra_field_length (s1.drop h.file_name_length).length) 0 ∧
    f.reader.window = ((s1.drop h.file_name_length).drop
        (min h.extra_field_length (s1.drop h.file_name_length).length)).take
          h.compressed_size ∧
    rest = ((s1.drop h.file_name_length).drop
        (min h.extra_field_length (s1.drop h.file_name_length).length)).drop
          h.compressed_size ∧
    f.compressed_size = h.compressed_size ∧
    f.uncompressed_size = h.uncompressed_size ∧
    f.crc = h.crc ∧ f.bytes_read = 0 := by
  simp only [parseAfterHeader] at hres
  by_cases henc : h.flags.encrypted = true
  · rw [if_pos henc] at hres
    exact absurd hres (by simp)
  · rw [if_neg henc] at hres
    by_cases hdd : h.flags.data_descriptor = true
    · rw [if_pos hdd] at hres
      exact absurd hres (by simp)
    · rw [if_neg hdd] at hres
      by_cases hutf : validUtf8 (s1.take h.file_name_length) = true
      · rw [if_pos hutf] at hres
        split at hres
        · exact absurd hres (by simp)
        · rename_i rd hcode
          split at hres
          · exact absurd hres (by simp)
          · rename_i lm hdate
            cases hres
            refine ⟨rfl, rfl, ?_, rfl, rfl, rfl, rfl, rfl⟩
            exact windowOfCode hcode
      · rw [if_neg hutf] at hres
        exact absurd hres (by simp)

theorem close_spec (e : EntryStreamWriter) (codec : StreamCodec)
    (hlen : e.parent.sink.length = e.data_offset) :
    (e.close codec).sink = e.parent.sink ++ codec.encode e.pending ++ le4Bytes DDD
      ++ le4Bytes (Nat.xor e.crcState 4294967295)
      ++ le4Bytes ((codec.encode e.pending).length % 4294967296)
      ++ le4Bytes (e.acceptedCount % 4294967296) ∧
    (e.close codec).cd_entries = e.parent.cd_entries ++
      [{ header :=
          { compressed_size := (codec.encode e.pending).length % 4294967296
            uncompressed_size := e.acceptedCount % 4294967296
            crc := Nat.xor e.crcState 4294967295
            v_made_by := 0
            v_needed := 0
            compression := e.lfh.compression
            extra_field_length := e.lfh.extra_field_length
            file_name_length := e.lfh.file_name_length
            file_comment_length := e.options.comment.length % 65536
            mod_time := e.lfh.mod_time
            mod_date := e.lfh.mod_date
            flags := e.lfh.flags
            disk_start := 0
            inter_attr := 0
            exter_attr := 0
            lh_offset := e.lfh_offset % 4294967296 }
         opts := e.options }] := by
  have hc : (e.parent.sink ++ codec.encode e.pending).length - e.data_offset
      = (codec.encode e.pending).length := by
    simp only [List.length_append]
    omega
  refine ⟨?_, ?_⟩
  · simp only [EntryStreamWriter.close]
    rw [hc]
  · simp only [EntryStreamWriter.close]
    rw [hc]

/-! ## Claim theorems -/

/-- Claim C2 (code bug evaluation): encoding the valid calendar tuple
(1980, 1, 1, 1, 0, 0) and decoding the packed pair with the field
extraction of zip_date_to_chrono returns hour 0, not hour 1: the source
computes hours as ((time AND 0x1F) >> 11), which masks the low five
bits and then shifts them away, so the decoded hour is always 0 instead
of the top five bits of the time word. -/
theorem c2_hour_bits_dropped :
    chrono_to_zip_time 1980 1 1 1 0 0 = (2048, 33) ∧
    zip_date_to_chrono 33 2048 = some (1980, 1, 1, 0, 0, 0) := by
  constructor
  · rfl
  · decide

/-- Claim C10 (code bug evaluation): next_entry is not total.  On a
source holding the local header magic followed by a 26-byte header of
zeroes — flags clear, compression Stored, but packed date 0, meaning
month 0 and day 0 — parsing reaches the chrono conversion and panics
inside Utc.ymd, modelled here by the panicked outcome, instead of
returning Ok or an error. -/
theorem c10_panics_on_zero_date :
    nextEntry (le4Bytes LFHD ++ List.replicate 26 0) = .panicked := by
  decide

/-- Claim C7: next_entry first reads a 4-byte little-endian marker: the
central directory magic yields no entry, the local header magic
continues into the fixed header parse, and any other value is a hard
LocalFileHeaderError carrying exactly the value found. -/
theorem c7_marker_dispatch (b0 b1 b2 b3 : Nat) (rest : List Nat) :
    (le32 b0 b1 b2 b3 = LFHD →
       nextEntry (b0 :: b1 :: b2 :: b3 :: rest) = parseEntryBody rest) ∧
    (le32 b0 b1 b2 b3 = CDFHD →
       nextEntry (b0 :: b1 :: b2 :: b3 :: rest) = .finished rest) ∧
    (le32 b0 b1 b2 b3 ≠ LFHD → le32 b0 b1 b2 b3 ≠ CDFHD →
       nextEntry (b0 :: b1 :: b2 :: b3 :: rest)
         = .failed (.LocalFileHeaderError (le32 b0 b1 b2 b3))) := by
  refine ⟨?_, ?_, ?_⟩
  · intro hm
    simp [nextEntry, hm]
  · intro hm
    have hne : CDFHD ≠ LFHD := by decide
    simp [nextEntry, hm, hne]
  · intro h1 h2
    simp [nextEntry, h1, h2]

/-- Claim C7 witness: the central directory magic bytes alone produce
the no-entry outcome. -/
theorem c7_marker_dispatch_witness : nextEntry [80, 75, 1, 2] = .finished [] :=
  (c7_marker_dispatch 80 75 1 2 []).2.1 (by decide)

/-- Claim C5 counterexample: the claim that consume returns the
corrupt-archive error whenever the drained byte count disagrees with
the declared uncompressed size is false, because bytes_read is a
wrapping 32-bit counter.  Draining 2^32 decoded bytes from a fresh
entry of declared size zero wraps the counter back to zero, so consume
returns Ok although the drained count, 4294967296, disagrees with the
declared size 0. -/
theorem c5_wrapping_counterexample :
    fileEmpty.consume (List.replicate 4294967296 7) = .ok () ∧
    fileEmpty.bytes_read + (List.replicate 4294967296 7).length
      ≠ fileEmpty.uncompressed_size := by
  have hlen : (List.replicate 4294967296 (7 : Nat)).length = 4294967296 := by
    rw [List.length_replicate]
  generalize hL : List.replicate 4294967296 (7 : Nat) = L
  rw [hL] at hlen
  have h := consumeLoop_spec fileEmpty L (by decide)
  constructor
  · unfold ZipStreamFile.consume
    have hbr : (consumeLoop fileEmpty L).bytes_read = 0 := by
      rw [h.1, hlen]
      show (0 + 4294967296) % 4294967296 = 0
      omega
    have hus : (consumeLoop fileEmpty L).uncompressed_size = 0 := by
      rw [h.2]
      rfl
    have heq : (consumeLoop fileEmpty L).is_eof = true := by
      simp [ZipStreamFile.is_eof, hbr, hus]
    simp [heq]
  · rw [hlen]
    show 0 + 4294967296 ≠ 0
    omega

/-- Claim C5 as amended: is_eof holds exactly when the wrapping 32-bit
counter of decoded bytes read equals the declared uncompressed size,
and consume — which drains the remaining decoded stream until a
zero-length read and then checks is_eof — returns Ok exactly when the
drained total agrees with the declared uncompressed size modulo 2^32,
and the corrupt-archive error ReadFailed when it disagrees modulo
2^32.  The hypothesis is the u32 representation invariant of the
counter. -/
theorem c5_is_eof_consume (f : ZipStreamFile) (decoded : List Nat)
    (hf : f.bytes_read < 4294967296) :
    (f.is_eof = true ↔ f.bytes_read = f.uncompressed_size) ∧
    (f.consume decoded = .ok () ↔
       (f.bytes_read + decoded.length) % 4294967296 = f.uncompressed_size) ∧
    ((f.bytes_read + decoded.length) % 4294967296 ≠ f.uncompressed_size →
       f.consume decoded = .error .ReadFailed) := by
  obtain ⟨hbr, hus⟩ := consumeLoop_spec f decoded hf
  refine ⟨?_, ?_, ?_⟩
  · unfold ZipStreamFile.is_eof
    simp only [beq_iff_eq]
    omega
  · unfold ZipStreamFile.consume
    constructor
    · intro hok
      by_cases heq : (consumeLoop f decoded).is_eof = true
      · have : (consumeLoop f decoded).uncompressed_size
            = (consumeLoop f decoded).bytes_read := by
          simpa [ZipStreamFile.is_eof] using heq
        omega
      · simp [heq] at hok
    · intro hagree
      have heq : (consumeLoop f decoded).is_eof = true := by
        simp [ZipStreamFile.is_eof]
        omega
      simp [heq]
  · intro hdis
    unfold ZipStreamFile.consume
    have heq : (consumeLoop f decoded).is_eof = false := by
      simp [ZipStreamFile.is_eof]
      omega
    simp [heq]

/-- Claim C5 witness: a fresh empty entry of declared size zero is at
end of file and consume succeeds on its empty decoded stream. -/
theorem c5_is_eof_consume_witness :
    ({ file_name := [], compressed_size := 0, uncompressed_size := 0,
       last_modified := (1980, 1, 1, 0, 0, 0), crc := 0, extra := [],
       bytes_read := 0, reader := .Stored [] } : ZipStreamFile).consume []
      = .ok () :=
  (c5_is_eof_consume _ [] (by decide)).2.1.mpr (by decide)

/-- Claim C3: on a wellformed header, next_entry fails with the
unsupported-feature error for encryption whenever the encrypted flag is
set, regardless of every byte after the fixed header (so before any
payload byte is read); with encryption clear it fails with the
unsupported-feature error for data descriptors whenever that flag is
set; and with both flags clear and a file name that reads back, a
compression code outside the supported set fails with the
unsupported-compression error carrying exactly that code, never falling
back to Stored. -/
theorem c3_header_rejections (h : LocalFileHeader) (tail : List Nat) (hwf : h.wf) :
    (h.flags.encrypted = true →
      nextEntry (le4Bytes LFHD ++ h.to_slice ++ tail)
        = .failed (.FeatureNotSupported "file encryption")) ∧
    (h.flags.encrypted = false → h.flags.data_descriptor = true →
      nextEntry (le4Bytes LFHD ++ h.to_slice ++ tail)
        = .failed (.FeatureNotSupported "file data descriptors")) ∧
    (h.flags.encrypted = false → h.flags.data_descriptor = false →
      validUtf8 (tail.take h.file_name_length) = true →
      h.compression ≠ 0 → h.compression ≠ 8 → h.compression ≠ 12 →
      h.compression ≠ 14 → h.compression ≠ 93 → h.compression ≠ 95 →
      nextEntry (le4Bytes LFHD ++ h.to_slice ++ tail)
        = .failed (.UnsupportedCompressionError h.compression)) := by
  have hstep : nextEntry (le4Bytes LFHD ++ h.to_slice ++ tail) = parseAfterHeader h tail := by
    rw [List.append_assoc, nextEntry_lfhd, parseEntryBody_header h hwf]
  refine ⟨?_, ?_, ?_⟩
  · intro henc
    rw [hstep]
    simp [parseAfterHeader, henc]
  · intro henc hdd
    rw [hstep]
    simp [parseAfterHeader, henc, hdd]
  · intro henc hdd hutf hc0 hc8 hc12 hc14 hc93 hc95
    rw [hstep]
    simp [parseAfterHeader, henc, hdd, hutf, compressionReaderOfCode,
      hc0, hc8, hc12, hc14, hc93, hc95]

/-- Claim C3 witness: a header with the encryption bit set is rejected
with the encryption unsupported-feature error. -/
theorem c3_header_rejections_witness :
    nextEntry (le4Bytes LFHD ++ hdrEncrypted.to_slice ++ [])
      = .failed (.FeatureNotSupported "file encryption") :=
  (c3_header_rejections hdrEncrypted [] (by decide)).1 (by decide)

/-- Claim C9 counterexample: the claim that next_entry succeeds for
arbitrary byte content of the file name field is false.  A Stored
header declaring a one-byte file name whose byte is 0xFF — not valid
UTF-8 — makes next_entry fail with ReadFailed, because read_string goes
through read_to_string, which rejects non-UTF-8 data. -/
theorem c9_non_utf8_name_fails :
    nextEntry (le4Bytes LFHD ++ hdrName1.to_slice ++ [255]) = .failed .ReadFailed := by
  decide

/-- Claim C9 as amended: next_entry takes exactly file_name_length
bytes for the file name and the following extra_field_length bytes for
the extra field, returns the extra field raw and the file name as the
bytes of a UTF-8 string, but fails with ReadFailed when the file name
bytes are not valid UTF-8. -/
theorem c9_name_extra_reads (h : LocalFileHeader) (hwf : h.wf)
    (name extraF tail : List Nat)
    (hname : name.length = h.file_name_length)
    (hextra : extraF.length = h.extra_field_length)
    (henc : h.flags.encrypted = false) (hdd : h.flags.data_descriptor = false) :
    (validUtf8 name = false →
      nextEntry (le4Bytes LFHD ++ h.to_slice ++ (name ++ extraF ++ tail))
        = .failed .ReadFailed) ∧
    (validUtf8 name = true →
      ∀ f rest, nextEntry (le4Bytes LFHD ++ h.to_slice ++ (name ++ extraF ++ tail))
          = .entry f rest →
        f.file_name = name ∧ f.extra = extraF) := by
  have hstep : nextEntry (le4Bytes LFHD ++ h.to_slice ++ (name ++ extraF ++ tail))
      = parseAfterHeader h (name ++ extraF ++ tail) := by
    rw [List.append_assoc, nextEntry_lfhd, parseEntryBody_header h hwf]
  have htakeName : (name ++ (extraF ++ tail)).take h.file_name_length = name := by
    rw [← hname]
    exact List.take_left name (extraF ++ tail)
  have hdropName : (name ++ (extraF ++ tail)).drop h.file_name_length = extraF ++ tail := by
    rw [← hname]
    exact List.drop_left name (extraF ++ tail)
  constructor
  · intro hbad
    rw [hstep]
    simp [parseAfterHeader, henc, hdd, List.append_assoc, htakeName, hbad]
  · intro hgood f rest hres
    rw [hstep] at hres
    obtain ⟨hfn, hfe, _⟩ := parseAfterHeader_entry hres
    constructor
    · rw [hfn, List.append_assoc, htakeName]
    · rw [hfe, List.append_assoc, hdropName]
      have hk : min h.extra_field_length (extraF ++ tail).length = extraF.length := by
        simp only [List.length_append]
        omega
      rw [hk, List.take_left extraF tail, hextra]
      simp

/-- Claim C9 witness: a Stored entry with a one-byte ASCII file name
and a one-byte extra field parses, and the entry handle returns exactly
those bytes. -/
theorem c9_name_extra_reads_witness :
    nextEntry (le4Bytes LFHD ++ hdrName1Extra1.to_slice ++ ([97] ++ [5] ++ []))
        = .entry fileName1Extra1 [] ∧
    fileName1Extra1.file_name = [97] ∧ fileName1Extra1.extra = [5] := by
  refine ⟨by decide, ?_⟩
  exact (c9_name_extra_reads hdrName1Extra1 (by decide) [97] [5] []
      (by decide) (by decide) (by decide) (by decide)).2 (by decide)
    fileName1Extra1 [] (by decide)

/-- Claim C8: whenever next_entry returns an entry, the decoder variant
wraps a bounded window of the source no longer than the declared
compressed size, and that window together with the returned remainder
is a contiguous split of the source — so reading through the entry
handle can never consume more than compressed_size bytes of the
underlying source, whichever of the six methods was selected. -/
theorem c8_bounded_window (src : List Nat) (f : ZipStreamFile) (rest : List Nat)
    (hres : nextEntry src = .entry f rest) :
    f.reader.window.length ≤ f.compressed_size ∧
    ∃ consumed, src = consumed ++ f.reader.window ++ rest := by
  rcases src with _ | ⟨b0, _ | ⟨b1, _ | ⟨b2, _ | ⟨b3, rest0⟩⟩⟩⟩
  · exact absurd hres (by simp [nextEntry])
  · exact absurd hres (by simp [nextEntry])
  · exact absurd hres (by simp [nextEntry])
  · exact absurd hres (by simp [nextEntry])
  · simp only [nextEntry] at hres
    by_cases hm1 : le32 b0 b1 b2 b3 = LFHD
    · rw [if_pos hm1] at hres
      simp only [parseEntryBody] at hres
      by_cases hlen : rest0.length < 26
      · rw [if_pos hlen] at hres
        exact absurd hres (by simp)
      · rw [if_neg hlen] at hres
        obtain ⟨hfn, hfe, hwin, hrest, hcs, _, _, _⟩ := parseAfterHeader_entry hres
        constructor
        · rw [hwin, hcs]
          exact List.length_take_le _ _
        · refine ⟨[b0, b1, b2, b3] ++ rest0.take 26
            ++ (rest0.drop 26).take (headerFromBytes (rest0.take 26)).file_name_length
            ++ ((rest0.drop 26).drop
                  (headerFromBytes (rest0.take 26)).file_name_length).take
                (min (headerFromBytes (rest0.take 26)).extra_field_length
                  ((rest0.drop 26).drop
                    (headerFromBytes (rest0.take 26)).file_name_length).length), ?_⟩
          rw [hwin, hrest]
          simp only [List.append_assoc, List.cons_append, List.nil_append,
            List.take_append_drop]
    · rw [if_neg hm1] at hres
      by_cases hm2 : le32 b0 b1 b2 b3 = CDFHD
      · rw [if_pos hm2] at hres
        exact absurd hres (by simp)
      · rw [if_neg hm2] at hres
        exact absurd hres (by simp)

/-- Claim C8 witness: a Stored entry declaring a two-byte compressed
payload wraps exactly those two source bytes, within its declared
bound. -/
theorem c8_bounded_window_witness :
    filePayload2.reader.window.length ≤ filePayload2.compressed_size ∧
    ∃ consumed, le4Bytes LFHD ++ hdrPayload2.to_slice ++ [9, 7]
      = consumed ++ filePayload2.reader.window ++ [] :=
  c8_bounded_window (le4Bytes LFHD ++ hdrPayload2.to_slice ++ [9, 7])
    filePayload2 [] (by decide)

/-- Claim C4: close on an open entry writer flushes the encoder,
computes the compressed size as the absolute output offset minus the
recorded data offset — which equals the byte length of the emitted
encoded payload — writes the trailing descriptor as the descriptor
magic, checksum, compressed size and uncompressed size in little-endian
order, and appends to the parent record list a central directory header
built from the original placeholder header fields plus the computed
sizes and checksum and the recorded local header offset. -/
theorem c4_close_descriptor_and_record
    (w : ZipFileWriter) (opts : EntryOptions) (mod_time mod_date : Nat)
    (writes : List (List Nat × Nat)) (codec : StreamCodec) :
    (runEntry w opts mod_time mod_date writes codec).sink
      = w.sink ++ le4Bytes LFHD ++ (lfhFor opts mod_time mod_date).to_slice
        ++ opts.filename ++ opts.extra
        ++ codec.encode (acceptedPayload writes)
        ++ le4Bytes DDD
        ++ le4Bytes (crc32 (acceptedPayload writes))
        ++ le4Bytes ((codec.encode (acceptedPayload writes)).length % 4294967296)
        ++ le4Bytes ((acceptedPayload writes).length % 4294967296) ∧
    ∃ cdh, (runEntry w opts mod_time mod_date writes codec).cd_entries
        = w.cd_entries ++ [{ header := cdh, opts := opts }] ∧
      cdh.compressed_size = (codec.encode (acceptedPayload writes)).length % 4294967296 ∧
      cdh.uncompressed_size = (acceptedPayload writes).length % 4294967296 ∧
      cdh.crc = crc32 (acceptedPayload writes) ∧
      cdh.compression = opts.compression ∧
      cdh.mod_time = mod_time ∧
      cdh.mod_date = mod_date ∧
      cdh.flags = { encrypted := false, data_descriptor := true } ∧
      cdh.file_name_length = opts.filename.length % 65536 ∧
      cdh.extra_field_length = opts.extra.length % 65536 ∧
      cdh.file_comment_length = opts.comment.length % 65536 ∧
      cdh.lh_offset = w.sink.length % 4294967296 := by
  obtain ⟨hsink, hcd, hpend, hcrcS, hacc, hopts, hlfh, hlo, hdo⟩ :=
    from_raw_spec w opts mod_time mod_date
  obtain ⟨f1, f2, f3, f4, f5, f6, f7, f8⟩ :=
    foldWrite_spec (EntryStreamWriter.from_raw w opts mod_time mod_date) writes
  have hplen : (writes.foldl (fun a p => a.write p.1 p.2)
        (EntryStreamWriter.from_raw w opts mod_time mod_date)).parent.sink.length
      = (writes.foldl (fun a p => a.write p.1 p.2)
        (EntryStreamWriter.from_raw w opts mod_time mod_date)).data_offset := by
    rw [f1, f5, hsink, hdo]
    simp [to_slice_length, le4Bytes]
    omega
  obtain ⟨hs, hc⟩ := close_spec _ codec hplen
  rw [f1, f6, f7, f8, hsink, hpend, hcrcS, hacc] at hs
  rw [f1, f2, f3, f4, f6, f7, f8, hcd, hpend, hcrcS, hacc, hopts, hlfh, hlo] at hc
  simp only [List.nil_append, Nat.zero_add] at hs hc
  constructor
  · show (_ : ZipFileWriter).sink = _
    simp only [runEntry, crc32]
    exact hs
  · show ∃ _, (_ : ZipFileWriter).cd_entries = _ ∧ _
    simp only [runEntry, crc32]
    exact ⟨_, hc, rfl, rfl, rfl, rfl, rfl, rfl, rfl, rfl, rfl, rfl, rfl⟩

/-- Claim C6: over any sequence of partial payload writes, exactly the
accepted prefix of each offered buffer is fed to the hasher, so the
checksum close finalizes and records — in the appended directory header
and in the descriptor bytes — is the CRC32 of the concatenation of all
accepted uncompressed payload bytes. -/
theorem c6_checksum_of_accepted
    (w : ZipFileWriter) (opts : EntryOptions) (mod_time mod_date : Nat)
    (writes : List (List Nat × Nat)) (codec : StreamCodec) :
    ∃ cdh, (runEntry w opts mod_time mod_date writes codec).cd_entries
        = w.cd_entries ++ [{ header := cdh, opts := opts }] ∧
      cdh.crc = crc32 (acceptedPayload writes) ∧
      ∃ pre, (runEntry w opts mod_time mod_date writes codec).sink
        = pre ++ le4Bytes (crc32 (acceptedPayload writes))
          ++ le4Bytes cdh.compressed_size ++ le4Bytes cdh.uncompressed_size := by
  obtain ⟨hsink, hcd, hpend, hcrcS, hacc, hopts, hlfh, hlo, hdo⟩ :=
    from_raw_spec w opts mod_time mod_date
  obtain ⟨f1, f2, f3, f4, f5, f6, f7, f8⟩ :=
    foldWrite_spec (EntryStreamWriter.from_raw w opts mod_time mod_date) writes
  have hplen : (writes.foldl (fun a p => a.write p.1 p.2)
        (EntryStreamWriter.from_raw w opts mod_time mod_date)).parent.sink.length
      = (writes.foldl (fun a p => a.write p.1 p.2)
        (EntryStreamWriter.from_raw w opts mod_time mod_date)).data_offset := by
    rw [f1, f5, hsink, hdo]
    simp [to_slice_length, le4Bytes]
    omega
  obtain ⟨hs, hc⟩ := close_spec _ codec hplen
  rw [f1, f6, f7, f8, hsink, hpend, hcrcS, hacc] at hs
  rw [f1, f2, f3, f4, f6, f7, f8, hcd, hpend, hcrcS, hacc, hopts, hlfh, hlo] at hc
  simp only [List.nil_append, Nat.zero_add] at hs hc
  simp only [runEntry, crc32]
  exact ⟨_, hc, rfl, _, hs⟩

/-- Claim C1 counterexample: write-then-read through the stream reader
does not round-trip.  Writing the payload bytes 104, 105 as a single
Stored entry and handing the produced byte stream to next_entry yields
the unsupported-feature rejection for data descriptors — the writer
always sets the data descriptor flag in the placeholder header, and the
stream reader rejects exactly that flag — so no payload can ever be
read back this way. -/
theorem c1_concrete_roundtrip_rejected :
    nextEntry ((writeEntryStream { sink := [], cd_entries := [] } optsA 0 33
        [104, 105] idCodec).sink)
      = .failed (.FeatureNotSupported "file data descriptors") := by
  decide

/-- Claim C1 as amended: writing a payload as one entry (open, a single
write accepting all of it, close) emits the placeholder header, the
encoded payload and a trailing descriptor and directory record whose
recorded checksum equals the CRC32 of the payload and whose recorded
sizes are the encoded and raw byte lengths; but reading the produced
entry back with the stream reader fails with the unsupported-feature
error for data descriptors, because the writer sets that flag and
next_entry rejects it. -/
theorem c1_write_then_read
    (w : ZipFileWriter) (opts : EntryOptions) (mod_time mod_date : Nat)
    (payload : List Nat) (codec : StreamCodec)
    (hcomp : opts.compression < 65536) (hmt : mod_time < 65536) (hmd : mod_date < 65536) :
    nextEntry ((writeEntryStream w opts mod_time mod_date payload codec).sink.drop
        w.sink.length)
      = .failed (.FeatureNotSupported "file data descriptors") ∧
    (∃ cdh, (writeEntryStream w opts mod_time mod_date payload codec).cd_entries
        = w.cd_entries ++ [{ header := cdh, opts := opts }] ∧
      cdh.crc = crc32 payload ∧
      cdh.uncompressed_size = payload.length % 4294967296 ∧
      cdh.compressed_size = (codec.encode payload).length % 4294967296) ∧
    (writeEntryStream w opts mod_time mod_date payload codec).sink
      = w.sink ++ le4Bytes LFHD ++ (lfhFor opts mod_time mod_date).to_slice
        ++ opts.filename ++ opts.extra ++ codec.encode payload
        ++ le4Bytes DDD ++ le4Bytes (crc32 payload)
        ++ le4Bytes ((codec.encode payload).length % 4294967296)
        ++ le4Bytes (payload.length % 4294967296) := by
  obtain ⟨hsink, hcd, hpend, hcrcS, hacc, hopts, hlfh, hlo, hdo⟩ :=
    from_raw_spec w opts mod_time mod_date
  obtain ⟨f1, f2, f3, f4, f5, f6, f7, f8⟩ :=
    foldWrite_spec (EntryStreamWriter.from_raw w opts mod_time mod_date)
      [(payload, payload.length)]
  have hap : acceptedPayload [(payload, payload.length)] = payload := by
    simp [acceptedPayload]
  rw [hap] at f6 f7 f8
  have hplen : ([(payload, payload.length)].foldl (fun a p => a.write p.1 p.2)
        (EntryStreamWriter.from_raw w opts mod_time mod_date)).parent.sink.length
      = ([(payload, payload.length)].foldl (fun a p => a.write p.1 p.2)
        (EntryStreamWriter.from_raw w opts mod_time mod_date)).data_offset := by
    rw [f1, f5, hsink, hdo]
    simp [to_slice_length, le4Bytes]
    omega
  obtain ⟨hs, hc⟩ := close_spec _ codec hplen
  rw [f1, f6, f7, f8, hsink, hpend, hcrcS, hacc] at hs
  rw [f1, f2, f3, f4, f6, f7, f8, hcd, hpend, hcrcS, hacc, hopts, hlfh, hlo] at hc
  simp only [List.nil_append, Nat.zero_add] at hs hc
  have hdropped : (writeEntryStream w opts mod_time mod_date payload codec).sink.drop
        w.sink.length
      = le4Bytes LFHD ++ ((lfhFor opts mod_time mod_date).to_slice
        ++ (opts.filename ++ (opts.extra ++ (codec.encode payload
        ++ (le4Bytes DDD ++ (le4Bytes (Nat.xor (crcUpdate crcInit payload) 4294967295)
        ++ (le4Bytes ((codec.encode payload).length % 4294967296)
        ++ le4Bytes (payload.length % 4294967296)))))))) := by
    show (([(payload, payload.length)].foldl (fun a p => a.write p.1 p.2)
        (EntryStreamWriter.from_raw w opts mod_time mod_date)).close codec).sink.drop
          w.sink.length = _
    rw [hs]
    simp only [List.append_assoc]
    exact List.drop_left w.sink _
  refine ⟨?_, ?_, ?_⟩
  · rw [hdropped, nextEntry_lfhd, parseEntryBody_header _ (lfhFor_wf opts _ _ hcomp hmt hmd)]
    simp [parseAfterHeader, lfhFor]
  · exact ⟨_, hc, rfl, rfl, rfl⟩
  · show (([(payload, payload.length)].foldl (fun a p => a.write p.1 p.2)
        (EntryStreamWriter.from_raw w opts mod_time mod_date)).close codec).sink = _
    rw [hs]
    rfl

/-- Claim C1 witness: the amended statement at the concrete Stored
write of payload bytes 104, 105 into an empty parent writer. -/
theorem c1_write_then_read_witness :
    nextEntry ((writeEntryStream { sink := [], cd_entries := [] } optsA 0 33
        [104, 105] idCodec).sink.drop
        ({ sink := [], cd_entries := [] } : ZipFileWriter).sink.length)
      = .failed (.FeatureNotSupported "file data descriptors") :=
  (c1_write_then_read { sink := [], cd_entries := [] } optsA 0 33 [104, 105] idCodec
    (by decide) (by decide) (by decide)).1

end RsAsyncZip
